import Mathlib

/-!
Shallow embedding of `iso_diag_BE.py` (isotopic disequilibrium and mixing
diagnostics) and verification of its specified properties.

Numeric values are modelled by exact reals (`ℝ`); `np.linspace` with its
default sample count (50) is modelled as an explicit 50-element list.
The external Rayleigh-curve generator `RayleighTropen` (imported from
`create_rayleigh_curves`, not part of this repository) is modelled as an
explicit function parameter.
-/

namespace IsoDiag

/-- Shallow embedding of `np.linspace(a, b)` with numpy's default sample
count `num = 50`: sample `i` is `a + i * (b - a) / 49` for `i = 0, …, 49`
(in exact arithmetic the last sample equals `b`). -/
noncomputable def linspace (a b : ℝ) : List ℝ :=
  (List.range 50).map (fun i : ℕ => a + (i : ℝ) * (b - a) / 49)

/-- Embedding of `aeq(T)` (line 4-5): the liquid-vapor equilibrium
fractionation factor `1 / exp(24844 / T**2 - 76.248 / T + 0.05261)`. -/
noncomputable def aeq (T : ℝ) : ℝ :=
  1 / Real.exp (24844 / T ^ 2 - 76.248 / T + 0.05261)

/-- Embedding of `get_dDdeq(T, dDv, dDr)` (lines 7-21): the disequilibrium
between vapor and rain, `dDv - (aeq(T + 273.15) * (dDr + 1000) - 1000)`. -/
noncomputable def get_dDdeq (T dDv dDr : ℝ) : ℝ :=
  let dDeq := aeq (T + 273.15) * (dDr + 1000) - 1000
  let dDdeq := dDv - dDeq
  dDdeq

/-- Output type of the external Rayleigh generator: the five sequences
`(h2o, dD, d18O, T, P)`. -/
abbrev RayleighOut := List ℝ × List ℝ × List ℝ × List ℝ × List ℝ

/-- Type of the external Rayleigh-curve generator
`RayleighTropen(T0, rh0, dD0, f, T_g)`. -/
abbrev RayleighGen := ℝ → ℝ → ℝ → ℝ → ℝ → RayleighOut

/-- Embedding of `calc_rayleigh(T0, rh0, dD0, f = 1, T_g = -30)`
(lines 24-40): forwards all arguments positionally to the external
generator `RayleighTropen`, which is taken here as a function parameter. -/
def calc_rayleigh (RayleighTropen : RayleighGen) (T0 rh0 dD0 : ℝ)
    (f : ℝ := 1) (T_g : ℝ := -30) : RayleighOut :=
  RayleighTropen T0 rh0 dD0 f T_g

/-- Embedding of `calc_mixing(p0, p1, l_log = True)` (lines 42-64) in exact
real arithmetic. `p0 = (q0, dD0)` is the dry member, `p1 = (q1, dD1)` the
moist member. In log mode `q = np.exp(np.linspace(np.log(q0), np.log(q1)))`,
otherwise `q = np.linspace(q0, q1)`; then
`dDf = (dD1*q1 - dD0*q0)/(q1 - q0)` and `dD = q0*(dD0 - dDf)*(1/q) + dDf`
elementwise. -/
noncomputable def calc_mixing (p0 p1 : ℝ × ℝ) (l_log : Bool := true) :
    List ℝ × List ℝ :=
  let q0 := p0.1
  let dD0 := p0.2
  let q1 := p1.1
  let dD1 := p1.2
  let q : List ℝ :=
    if l_log then (linspace (Real.log q0) (Real.log q1)).map Real.exp
    else linspace q0 q1
  let dDf := (dD1 * q1 - dD0 * q0) / (q1 - q0)
  let dD := q.map (fun x => q0 * (dD0 - dDf) * (1 / x) + dDf)
  (q, dD)

/-- Rational-arithmetic counterpart of `linspace` for the run-semantics
model below. -/
def linspaceQ (a b : ℚ) : List ℚ :=
  (List.range 50).map (fun i : ℕ => a + (i : ℚ) * (b - a) / 49)

/-- Run-semantics embedding of `calc_mixing` capturing Python scalar
evaluation: the sample axis `q` (a numpy array, whose elementwise ops never
raise) is computed first (lines 57-60); then the scalar expression
`dDf = (dD1 * q1 - dD0 * q0) / (q1 - q0)` (line 61) is evaluated with plain
Python numbers, and Python scalar division by zero raises
`ZeroDivisionError` — modelled as `none`. Exact rationals stand in for the
floats; numpy's `exp` and `log` are abstracted as function parameters since
no property below depends on their values. -/
def calc_mixingRun (e l : ℚ → ℚ) (p0 p1 : ℚ × ℚ) (l_log : Bool) :
    Option (List ℚ × List ℚ) :=
  let q0 := p0.1
  let dD0 := p0.2
  let q1 := p1.1
  let dD1 := p1.2
  let q : List ℚ :=
    if l_log then (linspaceQ (l q0) (l q1)).map e
    else linspaceQ q0 q1
  if q1 - q0 = 0 then none
  else
    let dDf := (dD1 * q1 - dD0 * q0) / (q1 - q0)
    let dD := q.map (fun x => q0 * (dD0 - dDf) * (1 / x) + dDf)
    some (q, dD)

/-- Embedding of `plot_rayleigh(ax, rl_list, …)` (lines 67-87). The axis is
modelled as a function `ax` from the two plotted sequences to a line-handle
type `H` (styling constants carry no logic). The loop is explicit state
passing: the first component collects the lines drawn, the second is the
loop variable `cs_rl`, `none` while unassigned — returning `none` models
the `UnboundLocalError` Python raises at `return cs_rl` when the loop body
never ran. Each iteration calls `calc_rayleigh(rl[0], rl[1], rl[2],
T_g = -10)` (so `f` keeps its default 1). The `rl_list is None` default
resolution (lines 76-80) is mirrored by the default argument; the
single-triple `t`/`rh`/`dD0` branch is not modelled, as no verified
property concerns it. -/
def plot_rayleigh {H : Type} (ax : List ℝ → List ℝ → H)
    (gen : RayleighGen)
    (rl_list : List (ℝ × ℝ × ℝ) := [(30, 90, -80)]) :
    List H × Option H :=
  rl_list.foldl
    (fun acc rl =>
      let out := calc_rayleigh gen rl.1 rl.2.1 rl.2.2 1 (-10)
      let cs_rl := ax out.1 out.2.1
      (acc.1 ++ [cs_rl], some cs_rl))
    ([], none)

/-- Embedding of `plot_superrayleigh(ax, srl_list, …, lxl)` (lines 89-110).
Same state-passing scheme as `plot_rayleigh`. The loop enumerates the list;
each entry `(T0, rh0, dD0, f)` yields `calc_rayleigh(srl[0], srl[1],
srl[2], f = srl[3], T_g = -10)`, truncated to the first `lx` samples, where
`lx` is 100 for index 0 and 130 otherwise when `lxl` is `None`, else
`lxl[sx]` (out-of-range indexing, which Python would raise on, is modelled
with default 0 — no verified property exercises it). -/
def plot_superrayleigh {H : Type} (ax : List ℝ → List ℝ → H)
    (gen : RayleighGen)
    (srl_list : List (ℝ × ℝ × ℝ × ℝ) :=
      [(13, 80, -175, 1.5), (22, 100, -110, 1.3)])
    (lxl : Option (List ℕ) := none) :
    List H × Option H :=
  srl_list.enum.foldl
    (fun acc p =>
      let sx := p.1
      let srl := p.2
      let lx : ℕ :=
        match lxl with
        | none => if sx = 0 then 100 else 130
        | some lxs => lxs.getD sx 0
      let out := calc_rayleigh gen srl.1 srl.2.1 srl.2.2.1 srl.2.2.2 (-10)
      let cs_srl := ax (out.1.take lx) (out.2.1.take lx)
      (acc.1 ++ [cs_srl], some cs_srl))
    ([], none)

/-- Embedding of `plot_mixing(ax, mx_list, …)` (lines 112-130). Same
state-passing scheme; each entry is a pair of mixing endpoints passed to
`calc_mixing` with the default log spacing. -/
noncomputable def plot_mixing {H : Type} (ax : List ℝ → List ℝ → H)
    (mx_list : List ((ℝ × ℝ) × (ℝ × ℝ)) :=
      [((50, -700), (15300, -150)), ((1000, -450), (22000, -120))]) :
    List H × Option H :=
  mx_list.foldl
    (fun acc mx =>
      let out := calc_mixing mx.1 mx.2
      let cs_mx := ax out.1 out.2
      (acc.1 ++ [cs_mx], some cs_mx))
    ([], none)

/- Helper lemmas -/

/-- Indexing a map over `List.range`. -/
lemma getD_map_range {α : Type} (f : ℕ → α) (n i : ℕ) (h : i < n) (d : α) :
    ((List.range n).map f).getD i d = f i := by
  rw [List.getD_eq_getElem?_getD, List.getElem?_map, List.getElem?_range h]
  rfl

/-- Closed form of the `q` samples of `calc_mixing` at index `i < 50`. -/
lemma calc_mixing_q_getD (q0 dD0 q1 dD1 : ℝ) (b : Bool) (i : ℕ)
    (h : i < 50) :
    ((calc_mixing (q0, dD0) (q1, dD1) b).1).getD i 0 =
      if b then
        Real.exp (Real.log q0 + i * (Real.log q1 - Real.log q0) / 49)
      else q0 + i * (q1 - q0) / 49 := by
  cases b with
  | false =>
      simp only [calc_mixing, linspace, if_neg Bool.false_ne_true,
        Bool.false_eq_true, if_false]
      exact getD_map_range _ 50 i h 0
  | true =>
      simp only [calc_mixing, linspace, if_true, List.map_map]
      rw [getD_map_range _ 50 i h 0]
      rfl

/-- Closed form of the `dD` samples of `calc_mixing` at index `i < 50`, in
terms of the corresponding `q` sample. -/
lemma calc_mixing_dD_getD (q0 dD0 q1 dD1 : ℝ) (b : Bool) (i : ℕ)
    (h : i < 50) :
    ((calc_mixing (q0, dD0) (q1, dD1) b).2).getD i 0 =
      q0 * (dD0 - (dD1 * q1 - dD0 * q0) / (q1 - q0)) *
          (1 / ((calc_mixing (q0, dD0) (q1, dD1) b).1).getD i 0) +
        (dD1 * q1 - dD0 * q0) / (q1 - q0) := by
  cases b with
  | false =>
      simp only [calc_mixing, linspace, Bool.false_eq_true, if_false,
        List.map_map]
      rw [getD_map_range _ 50 i h 0, getD_map_range _ 50 i h 0]
      rfl
  | true =>
      simp only [calc_mixing, linspace, if_true, List.map_map]
      rw [getD_map_range _ 50 i h 0, getD_map_range _ 50 i h 0]
      rfl

/- Claim theorems -/

/-- C2: `get_dDdeq(T, dDv, dDr)` forms the equilibrium ratio
`aeq(T + 273.15) * (dDr + 1000) - 1000` and returns exactly `dDv` minus it,
for every numeric input triple. -/
theorem C2_disequilibrium_formula (T dDv dDr : ℝ) :
    get_dDdeq T dDv dDr =
      dDv - (aeq (T + 273.15) * (dDr + 1000) - 1000) := rfl

/-- C3: for every `T ≠ 0`, `aeq(T)` is exactly the reciprocal of
`exp(24844 / T² - 76.248 / T + 0.05261)`. -/
theorem C3_aeq_formula (T : ℝ) (_h : T ≠ 0) :
    aeq T = (Real.exp (24844 / T ^ 2 - 76.248 / T + 0.05261))⁻¹ :=
  one_div _

/-- Witness for C3 at `T = 2`. -/
theorem C3_aeq_formula_witness :
    (2 : ℝ) ≠ 0 ∧
      aeq 2 = (Real.exp (24844 / (2 : ℝ) ^ 2 - 76.248 / 2 + 0.05261))⁻¹ :=
  ⟨by norm_num, C3_aeq_formula 2 (by norm_num)⟩

/-- C4: for every pair of endpoints and both spacing modes, the two
sequences returned by `calc_mixing` each have length exactly 50. -/
theorem C4_mixing_length (p0 p1 : ℝ × ℝ) (b : Bool) :
    (calc_mixing p0 p1 b).1.length = 50 ∧
      (calc_mixing p0 p1 b).2.length = 50 := by
  cases b <;> simp [calc_mixing, linspace]

/-- C6: `get_dDdeq` is affine in `dDv` with unit slope:
`get_dDdeq(T, dDv + k, dDr) = get_dDdeq(T, dDv, dDr) + k`. -/
theorem C6_disequilibrium_affine (T dDv dDr k : ℝ) :
    get_dDdeq T (dDv + k) dDr = get_dDdeq T dDv dDr + k := by
  simp only [get_dDdeq]
  ring

/-- C7: for every `T > 0`, `aeq(T) > 0`. -/
theorem C7_aeq_pos (T : ℝ) (_h : 0 < T) : 0 < aeq T := by
  unfold aeq
  positivity

/-- Witness for C7 at `T = 1`. -/
theorem C7_aeq_pos_witness : (0 : ℝ) < 1 ∧ 0 < aeq 1 :=
  ⟨by norm_num, C7_aeq_pos 1 (by norm_num)⟩

/-- C1: with `q0 > 0`, `q1 > 0` and `q0 ≠ q1`, the `dD` curve returned by
`calc_mixing` recovers the endpoints exactly in exact arithmetic: the first
sample equals `dD0` and the last (index 49) equals `dD1`, in both
log-spacing and linear-spacing modes. -/
theorem C1_mixing_endpoints (q0 dD0 q1 dD1 : ℝ) (hq0 : 0 < q0)
    (hq1 : 0 < q1) (hne : q0 ≠ q1) (b : Bool) :
    ((calc_mixing (q0, dD0) (q1, dD1) b).2).getD 0 0 = dD0 ∧
      ((calc_mixing (q0, dD0) (q1, dD1) b).2).getD 49 0 = dD1 := by
  have h0 : q0 ≠ 0 := ne_of_gt hq0
  have h1 : q1 ≠ 0 := ne_of_gt hq1
  have hsub : q1 - q0 ≠ 0 := sub_ne_zero.mpr (Ne.symm hne)
  have hq_first : ((calc_mixing (q0, dD0) (q1, dD1) b).1).getD 0 0 = q0 := by
    rw [calc_mixing_q_getD q0 dD0 q1 dD1 b 0 (by norm_num)]
    cases b with
    | false => norm_num
    | true => simp [Real.exp_log hq0]
  have hq_last : ((calc_mixing (q0, dD0) (q1, dD1) b).1).getD 49 0 = q1 := by
    rw [calc_mixing_q_getD q0 dD0 q1 dD1 b 49 (by norm_num)]
    cases b with
    | false => push_cast; ring
    | true =>
        have hlog : Real.log q0 + ((49 : ℕ) : ℝ) *
            (Real.log q1 - Real.log q0) / 49 = Real.log q1 := by
          push_cast; ring
        simp only [if_true]
        rw [hlog, Real.exp_log hq1]
  constructor
  · rw [calc_mixing_dD_getD q0 dD0 q1 dD1 b 0 (by norm_num), hq_first]
    field_simp
    ring
  · rw [calc_mixing_dD_getD q0 dD0 q1 dD1 b 49 (by norm_num), hq_last]
    field_simp
    ring

/-- Witness for C1 at `q0 = 1`, `dD0 = -700`, `q1 = 2`, `dD1 = -150`, log
mode. -/
theorem C1_mixing_endpoints_witness :
    (0 : ℝ) < 1 ∧ (0 : ℝ) < 2 ∧ (1 : ℝ) ≠ 2 ∧
      (((calc_mixing (1, -700) (2, -150) true).2).getD 0 0 = -700 ∧
        ((calc_mixing (1, -700) (2, -150) true).2).getD 49 0 = -150) :=
  ⟨by norm_num, by norm_num, by norm_num,
    C1_mixing_endpoints 1 (-700) 2 (-150) (by norm_num) (by norm_num)
      (by norm_num) true⟩

/-- C5: in log-spacing mode, for `q1 > q0 > 0` the `q` samples are strictly
increasing and consecutive ratios all equal the constant
`exp((log q1 - log q0) / 49)` (geometric progression); in linear-spacing
mode, consecutive differences all equal the constant `(q1 - q0) / 49`
(arithmetic progression). -/
theorem C5_q_progressions (q0 dD0 q1 dD1 : ℝ) (i : ℕ) (hi : i + 1 < 50) :
    (0 < q0 → q0 < q1 →
        ((calc_mixing (q0, dD0) (q1, dD1) true).1.getD i 0 <
            (calc_mixing (q0, dD0) (q1, dD1) true).1.getD (i + 1) 0 ∧
          (calc_mixing (q0, dD0) (q1, dD1) true).1.getD (i + 1) 0 /
              (calc_mixing (q0, dD0) (q1, dD1) true).1.getD i 0 =
            Real.exp ((Real.log q1 - Real.log q0) / 49))) ∧
      (calc_mixing (q0, dD0) (q1, dD1) false).1.getD (i + 1) 0 -
          (calc_mixing (q0, dD0) (q1, dD1) false).1.getD i 0 =
        (q1 - q0) / 49 := by
  have hi' : i < 50 := by omega
  rw [calc_mixing_q_getD q0 dD0 q1 dD1 true i hi',
    calc_mixing_q_getD q0 dD0 q1 dD1 true (i + 1) hi,
    calc_mixing_q_getD q0 dD0 q1 dD1 false i hi',
    calc_mixing_q_getD q0 dD0 q1 dD1 false (i + 1) hi]
  simp only [if_true]
  refine ⟨fun hq0 hlt => ?_, by push_cast; ring⟩
  have hlog : Real.log q0 < Real.log q1 := Real.log_lt_log hq0 hlt
  have hstep : 0 < (Real.log q1 - Real.log q0) / 49 := by linarith
  have hsplit : (((i : ℕ) + 1 : ℕ) : ℝ) * (Real.log q1 - Real.log q0) / 49 =
      (i : ℝ) * (Real.log q1 - Real.log q0) / 49 +
        (Real.log q1 - Real.log q0) / 49 := by
    push_cast; ring
  constructor
  · exact Real.exp_lt_exp.mpr (by rw [hsplit]; linarith)
  · rw [← Real.exp_sub]
    congr 1
    push_cast
    ring

/-- Witness for C5 at `q0 = 1`, `q1 = 2`, `i = 0`. -/
theorem C5_q_progressions_witness :
    0 + 1 < 50 ∧
      ((0 < (1 : ℝ) → (1 : ℝ) < 2 →
          ((calc_mixing (1, 0) (2, 0) true).1.getD 0 0 <
              (calc_mixing (1, 0) (2, 0) true).1.getD (0 + 1) 0 ∧
            (calc_mixing (1, 0) (2, 0) true).1.getD (0 + 1) 0 /
                (calc_mixing (1, 0) (2, 0) true).1.getD 0 0 =
              Real.exp ((Real.log 2 - Real.log 1) / 49))) ∧
        (calc_mixing (1, 0) (2, 0) false).1.getD (0 + 1) 0 -
            (calc_mixing (1, 0) (2, 0) false).1.getD 0 0 =
          ((2 : ℝ) - 1) / 49) :=
  ⟨by norm_num, C5_q_progressions 1 0 2 0 0 (by norm_num)⟩

/-- C8: `calc_rayleigh` is a pure pass-through: it returns exactly
`RayleighTropen(T0, rh0, dD0, f, T_g)` with arguments forwarded
positionally, and its defaults are `f = 1`, `T_g = -30`. -/
theorem C8_rayleigh_passthrough (gen : RayleighGen) (T0 rh0 dD0 f T_g : ℝ) :
    calc_rayleigh gen T0 rh0 dD0 f T_g = gen T0 rh0 dD0 f T_g ∧
      calc_rayleigh gen T0 rh0 dD0 = gen T0 rh0 dD0 1 (-30) :=
  ⟨rfl, rfl⟩

/-- C9 (counterexample): with equal endpoint mixing ratios `q0 = q1 = 2`
(plain Python numbers, as supplied by the repository's own caller
`plot_mixing`), the scalar division `(dD1*q1 - dD0*q0) / (q1 - q0)` raises
`ZeroDivisionError`, so `calc_mixing` returns no sequences at all — not
two sequences containing NaN or Inf. -/
theorem C9_counterexample :
    calc_mixingRun id id (2, -450) (2, -120) false = none := by
  norm_num [calc_mixingRun]

/-- C9 (amended): whenever the two endpoint mixing ratios are equal, the
scalar division by `q1 - q0` raises `ZeroDivisionError` (modelled as
`none`): the call fails before returning, in both spacing modes. -/
theorem C9_equal_endpoints_raises (e l : ℚ → ℚ) (p0 p1 : ℚ × ℚ) (b : Bool)
    (h : p1.1 = p0.1) :
    calc_mixingRun e l p0 p1 b = none := by
  simp [calc_mixingRun, h]

/-- Witness for the amended C9 at `p0 = (1, -700)`, `p1 = (1, -150)`. -/
theorem C9_equal_endpoints_raises_witness :
    ((1, -150) : ℚ × ℚ).1 = ((1, -700) : ℚ × ℚ).1 ∧
      calc_mixingRun id id (1, -700) (1, -150) true = none :=
  ⟨rfl, C9_equal_endpoints_raises id id (1, -700) (1, -150) true rfl⟩

/-- C10: each of the three plot adapters, called with an explicitly
supplied empty curve list, draws nothing (empty list of drawn lines) and
its handle variable is never assigned (`none`, i.e. Python raises
`UnboundLocalError` at the `return` instead of returning a line handle). -/
theorem C10_plot_adapters_empty_list {H : Type}
    (ax : List ℝ → List ℝ → H) (gen : RayleighGen) :
    plot_rayleigh ax gen [] = ([], none) ∧
      plot_superrayleigh ax gen [] none = ([], none) ∧
      plot_mixing ax [] = ([], none) :=
  ⟨rfl, rfl, rfl⟩

end IsoDiag
